import Mathlib

/-!
Shallow embedding of the iface-proxy sources (HTTP/1.x front-end,
SOCKS5 front-end, throttled logger, outbound dialer, listener admission)
together with theorems settling the specification claims.

Strings from the Rust sources are modelled as `List Char`; raw socket bytes
as `List Nat`.  Stateful loops are modelled as explicit state passing, and
TCP streams as the list of chunks that successive `read` calls deliver.
-/

namespace IfaceProxy

/-- Model of a Rust string slice: a sequence of characters. -/
abbrev Str := List Char

/-! ## HTTP preamble accumulation (`read_http_headers`)

The source (src/http_proxy.rs:18-28, textually repeated in src/proxy.rs and
src/main.rs) reads up to 1024 bytes at a time into a growing buffer,
returns the buffer once `\r\n\r\n` occurs in it, and fails with
`headers too large` when the buffer exceeds 64*1024 bytes without the
terminator.  A read of zero bytes means the peer closed. -/

/-- `buf.windows(4).any(|w| w == b"\r\n\r\n")`: does the byte sequence
13,10,13,10 occur in `buf`? -/
def hasHdrEnd : List Nat → Bool
  | [] => false
  | a :: rest => [13, 10, 13, 10].isPrefixOf (a :: rest) || hasHdrEnd rest

/-- `read_http_headers`, with the TCP stream modelled as the list of chunks
successive reads return (each read returns at most 1024 bytes; an exhausted
list models a closed peer, as does an explicit empty chunk). -/
def read_http_headers (buf : List Nat) : List (List Nat) → Except String (List Nat)
  | [] => .error "client closed before headers"
  | c :: rest =>
    if c.isEmpty then .error "client closed before headers"
    else
      let buf' := buf ++ c
      if hasHdrEnd buf' then .ok buf'
      else if buf'.length > 64 * 1024 then .error "headers too large"
      else read_http_headers buf' rest

/-- Concrete client byte stream for the C2 counterexample: 64 reads of 1024
bytes of `a`, then a final 4-byte read holding the `\r\n\r\n` terminator. -/
def c2Chunks : List (List Nat) := List.replicate 64 (List.replicate 1024 97) ++ [[13, 10, 13, 10]]

/-- The preamble those reads produce: 65540 bytes, past the claimed bound. -/
def c2Buf : List Nat := List.replicate 65536 97 ++ [13, 10, 13, 10]

/-! ## String primitives used by the HTTP front-end -/

/-- Rust `u8::to_ascii_lowercase` lifted to chars (`str::to_ascii_lowercase`
maps exactly the ASCII uppercase range). -/
def asciiLowerChar (c : Char) : Char :=
  if 65 ≤ c.toNat ∧ c.toNat ≤ 90 then Char.ofNat (c.toNat + 32) else c

/-- Rust `str::to_ascii_lowercase`. -/
def asciiLower (s : Str) : Str := s.map asciiLowerChar

/-- Rust `char::is_whitespace` (the Unicode White_Space set). -/
def isRustWs (c : Char) : Bool :=
  c.toNat ∈ [0x09, 0x0A, 0x0B, 0x0C, 0x0D, 0x20, 0x85, 0xA0, 0x1680,
    0x2028, 0x2029, 0x202F, 0x205F, 0x3000] ||
  (0x2000 ≤ c.toNat && c.toNat ≤ 0x200A)

/-- Rust `str::trim`: drop whitespace at both ends. -/
def rustTrim (s : Str) : Str :=
  ((s.dropWhile isRustWs).reverse.dropWhile isRustWs).reverse

/-- Rust `str::strip_prefix` for a literal pattern. -/
def stripPre (p s : Str) : Option Str :=
  if p.isPrefixOf s then some (s.drop p.length) else none

/-- Rust `str::split("\r\n")`: split on each non-overlapping occurrence of
CRLF, keeping empty pieces. -/
def splitCRLF : Str → List Str
  | [] => [[]]
  | '\r' :: '\n' :: rest => [] :: splitCRLF rest
  | c :: rest =>
    match splitCRLF rest with
    | [] => [[c]]
    | l :: ls => (c :: l) :: ls

/-- Rust `str::parse::<u16>()` on the digit part: at least one ASCII digit
and a value within the `u16` range. -/
def parseU16Digits (cs : Str) : Option Nat :=
  if cs ≠ [] ∧ cs.all (fun c => c.isDigit) then
    let v := cs.foldl (fun acc c => 10 * acc + (c.toNat - 48)) 0
    if v ≤ 65535 then some v else none
  else none

/-- Rust `str::parse::<u16>()`: an optional leading `+` sign, then digits. -/
def parseU16 (cs : Str) : Option Nat :=
  match cs with
  | '+' :: rest => parseU16Digits rest
  | _ => parseU16Digits cs

/-! ## HTTP request parsing and header rewriting (src/http_proxy.rs) -/

/-- `split_headers_body` (src/http_proxy.rs:30-35): the offset just past the
first `\r\n\r\n` of the raw preamble buffer, and the bytes after it. -/
def split_headers_body : List Nat → Option (Nat × List Nat)
  | 13 :: 10 :: 13 :: 10 :: rest => some (4, rest)
  | _ :: rest => (split_headers_body rest).map (fun ib => (ib.1 + 1, ib.2))
  | [] => none

/-- One line of the `parse_host_from_headers` loop (src/http_proxy.rs:48-51):
only the exact spellings `Host:` and `host:` are stripped; the remainder is
trimmed. -/
def hostOfLine (l : Str) : Option Str :=
  match stripPre ("Host:".toList) l with
  | some rest => some (rustTrim rest)
  | none =>
    match stripPre ("host:".toList) l with
    | some rest => some (rustTrim rest)
    | none => none

/-- `parse_host_from_headers` after the CRLF split: the first matching line
past the request line wins. -/
def parse_host_lines (lines : List Str) : Option Str :=
  List.findSome? hostOfLine (lines.drop 1)

/-- `parse_host_from_headers` (src/http_proxy.rs:47-53). -/
def parse_host_from_headers (headers : Str) : Option Str :=
  parse_host_lines (splitCRLF headers)

/-- Rust `str::split_once(':')`: split at the first colon, if any. -/
def splitOnceColon (host : Str) : Option (Str × Str) :=
  match List.findIdx? (fun c => c = ':') host with
  | some i => some (host.take i, host.drop (i + 1))
  | none => none

/-- Target derivation for a non-CONNECT request (src/http_proxy.rs:73-80):
absolute `http://` URIs carry the host up to the first `/`; origin-form URIs
consult the Host header with an empty-string default; anything else is
rejected.  A trailing `:port` inside the host is then split off, the port
parsed with fallback 80. -/
def deriveTargetLines (uri : Str) (lines : List Str) : Except String (Str × Nat × Str) :=
  let step1 : Except String (Str × Nat × Str) :=
    match stripPre ("http://".toList) uri with
    | some rest =>
      match List.findIdx? (fun c => c = '/') rest with
      | some pos => .ok (rest.take pos, 80, rest.drop pos)
      | none => .ok (rest, 80, ['/'])
    | none =>
      if uri.head? = some '/' then
        .ok ((parse_host_lines lines).getD [], 80, uri)
      else .error "unsupported URI for HTTP proxy"
  match step1 with
  | .error e => .error e
  | .ok (host, port, path) =>
    match splitOnceColon host with
    | some (h, p) => .ok (h, (parseU16 p).getD 80, path)
    | none => .ok (host, port, path)

/-- `lower.starts_with("host:")` on a rewritten header line. -/
def isHostLine (l : Str) : Bool := ("host:".toList).isPrefixOf (asciiLower l)

/-- The hop-by-hop headers dropped by the rewriter (src/http_proxy.rs:94). -/
def isStrippedHopHeader (l : Str) : Bool :=
  ("proxy-connection:".toList).isPrefixOf (asciiLower l) ||
  ("proxy-authorization:".toList).isPrefixOf (asciiLower l)

/-- The `Host` header synthesized when the request carried none
(src/http_proxy.rs:98). -/
def synthHostLine (host : Str) (port : Nat) : Str :=
  if port = 80 then "Host: ".toList ++ host
  else "Host: ".toList ++ host ++ ':' :: Nat.toDigits 10 port

/-- The rewritten preamble as its list of lines (src/http_proxy.rs:85-99):
the new request line, then every original header line except empties and the
stripped hop-by-hop headers, then a synthesized Host header when no original
line was a Host header. -/
def rebuildLines (lines : List Str) (method path version host : Str) (port : Nat) : List Str :=
  let rest := lines.drop 1
  let kept := rest.filter (fun l => !l.isEmpty && !isStrippedHopHeader l)
  let hasHost := rest.any (fun l => !l.isEmpty && isHostLine l)
  (method ++ ' ' :: path ++ ' ' :: version) ::
    (if hasHost then kept else kept ++ [synthHostLine host port])

/-- The rewritten preamble as the byte-for-byte string that is written
upstream: every line followed by CRLF, then the terminating CRLF. -/
def rebuiltString (lines : List Str) (method path version host : Str) (port : Nat) : Str :=
  ((rebuildLines lines method path version host port).map (fun l => l ++ ['\r', '\n'])).flatten
    ++ ['\r', '\n']

/-- Bytes of a string literal, for concrete request inputs. -/
def strBytes (s : String) : List Nat := s.toList.map Char.toNat

/-- Destination of a proxied write: back to the client, or on to upstream. -/
inductive Dest
  | toClient
  | toUpstream
deriving DecidableEq, Repr

/-- The write sequence of the non-CONNECT forward step in
src/http_proxy.rs:101-102: the rewritten preamble goes to upstream, but the
already-buffered body bytes are written to `inbound`, i.e. back to the
client. -/
def forwardWritesHttpProxyRs (preamble body : List Nat) : List (Dest × List Nat) :=
  (Dest.toUpstream, preamble) :: (if body.isEmpty then [] else [(Dest.toClient, body)])

/-- The same forward step in src/proxy.rs:296-300 (and src/main.rs:206-210):
the already-buffered body bytes go to `outbound`, i.e. upstream. -/
def forwardWritesProxyRs (preamble body : List Nat) : List (Dest × List Nat) :=
  (Dest.toUpstream, preamble) :: (if body.isEmpty then [] else [(Dest.toUpstream, body)])

/-- The C1 failing request: a non-CONNECT request whose single preamble read
also captured the first body bytes `BODY`. -/
def c1Raw : List Nat := strBytes "POST http://h/x HTTP/1.1\r\n\r\nBODY"

/-- The rewritten preamble the rewriter produces for `c1Raw`. -/
def c1Pre : List Nat := strBytes "POST /x HTTP/1.1\r\nHost: h\r\n\r\n"

/-- C4 counterexample input: origin-form request with an all-caps `HOST:`
header. -/
def c4HeadersUpper : Str := "GET / HTTP/1.1\r\nHOST: example.com\r\n\r\n".toList

/-- The same request with the canonical `Host:` spelling. -/
def c4HeadersExact : Str := "GET / HTTP/1.1\r\nHost: example.com\r\n\r\n".toList

/-! ## SOCKS5 front-end (src/socks5.rs) -/

/-- `need_auth` (src/socks5.rs:32): credentials demanded when either a
username or a password is configured. -/
def needAuth (user pass : Option (List Nat)) : Bool := user.isSome || pass.isSome

/-- The credential comparison of the subnegotiation (src/socks5.rs:42):
`user.map(..bytes..).as_deref() == Some(&ubytes) && pass.map(..).as_deref()
== Some(&pbytes)`. -/
def authOk (user pass : Option (List Nat)) (ubytes pbytes : List Nat) : Bool :=
  (user == some ubytes) && (pass == some pbytes)

/-- Subnegotiation outcome (src/socks5.rs:43): the two status bytes written
to the client, and whether the handshake proceeds. -/
def subnegResult (user pass : Option (List Nat)) (ubytes pbytes : List Nat) :
    List Nat × Except String Unit :=
  if authOk user pass ubytes pbytes then ([0x01, 0x00], .ok ())
  else ([0x01, 0x01], .error "invalid username/password")

/-- `read_exact_into` on the modelled request byte stream: take exactly `n`
bytes or fail like an expired read timeout. -/
def takeBytes (n : Nat) (input : List Nat) : Except String (List Nat × List Nat) :=
  if n ≤ input.length then .ok (input.take n, input.drop n) else .error "read timeout"

/-- A parsed SOCKS5 destination, before rendering to a host string. -/
inductive SockHost
  | v4 (a b c d : Nat)
  | domain (bytes : List Nat)
  | v6 (bytes : List Nat)
deriving DecidableEq, Repr

/-- `u16::from_be_bytes` on a two-byte read. -/
def be16 : List Nat → Nat
  | [a, b] => 256 * a + b
  | _ => 0

/-- Destination parsing by ATYP (src/socks5.rs:52-57): 0x01 reads 4 address
bytes, 0x03 a length-prefixed domain, 0x04 reads 16 address bytes; each is
followed by a 2-byte big-endian port; any other ATYP fails. -/
def socks5ParseAddr (atyp : Nat) (input : List Nat) :
    Except String (SockHost × Nat × List Nat) :=
  if atyp = 1 then
    match takeBytes 4 input with
    | .error e => .error e
    | .ok (ab, r) =>
      match takeBytes 2 r with
      | .error e => .error e
      | .ok (pb, r2) =>
        .ok (.v4 (ab.getD 0 0) (ab.getD 1 0) (ab.getD 2 0) (ab.getD 3 0), be16 pb, r2)
  else if atyp = 3 then
    match takeBytes 1 input with
    | .error e => .error e
    | .ok (lb, r) =>
      match takeBytes (lb.getD 0 0) r with
      | .error e => .error e
      | .ok (hb, r2) =>
        match takeBytes 2 r2 with
        | .error e => .error e
        | .ok (pb, r3) => .ok (.domain hb, be16 pb, r3)
  else if atyp = 4 then
    match takeBytes 16 input with
    | .error e => .error e
    | .ok (ab, r) =>
      match takeBytes 2 r with
      | .error e => .error e
      | .ok (pb, r2) => .ok (.v6 ab, be16 pb, r2)
  else .error "Unsupported ATYP"

/-- Command dispatch (src/socks5.rs:59-70), with a successful CONNECT
abstracted to its dial target. -/
def socks5Dispatch (cmd : Nat) (target : SockHost × Nat) : Except String (SockHost × Nat) :=
  match cmd with
  | 1 => .ok target
  | 3 => .error "UDP ASSOC not supported"
  | _ => .error "Unsupported CMD"

/-- The request stage after the 4-byte header `(VER, CMD, RSV, ATYP)`:
parse the destination, then dispatch on the command. -/
def socks5Request (cmd atyp : Nat) (input : List Nat) : Except String (SockHost × Nat) :=
  match socks5ParseAddr atyp input with
  | .error e => .error e
  | .ok (h, p, _) => socks5Dispatch cmd (h, p)

/-! ## Throttled logger (src/util.rs:60-96) -/

/-- The process-global rate window: `LOG_WINDOW_SEC`, `LOG_COUNT`,
`LOG_SUPPRESSED`. -/
structure LogState where
  window : Nat
  count : Nat
  suppressed : Nat
deriving DecidableEq, Repr

def LOGS_PER_SEC : Nat := 50

/-- The window-roll block of `log_throttled` (src/util.rs:76-89): when the
second changed, the compare-and-set winner swaps `suppressed` out (emitting
the `suppressed N messages in last 1s` line when N was positive) and resets
the count; in this sequential single-caller model the winner always wins.
Returns the state after the roll and the emitted `suppressed N` line. -/
def rollWindow (s : LogState) (now : Nat) : LogState × Option Nat :=
  if now ≠ s.window then
    (({ window := now, count := 0, suppressed := 0 } : LogState),
      if s.suppressed > 0 then some s.suppressed else none)
  else (s, none)

/-- `log_throttled` as a sequential step (src/util.rs:72-96): the window
roll, then the fetch-and-add on the count deciding between invoking
`emit_fn` and bumping `suppressed`.
Returns `(state, emitted, suppressedLine)`. -/
def log_throttled (s : LogState) (now : Nat) : LogState × Bool × Option Nat :=
  let s1 := (rollWindow s now).1
  if s1.count < LOGS_PER_SEC then
    ({ s1 with count := s1.count + 1 }, true, (rollWindow s now).2)
  else
    ({ s1 with count := s1.count + 1, suppressed := s1.suppressed + 1 }, false,
      (rollWindow s now).2)

/-- Run a sequence of `log_throttled` calls at the given wall seconds;
returns the final state, how many calls invoked their `emit_fn`, and how
many `suppressed N` lines were printed. -/
def runLog (s : LogState) : List Nat → LogState × Nat × Nat
  | [] => (s, 0, 0)
  | t :: ts =>
    let step := log_throttled s t
    let rest := runLog step.1 ts
    (rest.1, (if step.2.1 then 1 else 0) + rest.2.1,
      (if (step.2.2).isSome then 1 else 0) + rest.2.2)

/-! ## Outbound dialer (src/util.rs:193-235) -/

inductive IpFamily
  | v4
  | v6
deriving DecidableEq, Repr

/-- A resolved socket address: its family and an abstract identity. -/
structure RAddr where
  fam : IpFamily
  id : Nat
deriving DecidableEq, Repr

/-- One candidate attempt: create a fresh socket of the address family,
apply the interface bind, and only if the bind succeeded, `connect`; the
first failure of the two is the attempt's error.  `bindRes` and `connRes`
are oracles for the two OS outcomes on this address. -/
def attemptResult (bindRes : RAddr → Except String Unit)
    (connRes : RAddr → Except String Nat) (a : RAddr) : Except String Nat :=
  match bindRes a with
  | .error e => .error e
  | .ok _ => connRes a

/-- The candidate loop of `connect_outbound` with its `last_err` register:
return the first successful stream, else fall through recording the error. -/
def connectLoop (bindRes : RAddr → Except String Unit)
    (connRes : RAddr → Except String Nat) :
    List RAddr → Option String → Except String Nat
  | [], lastErr =>
    match lastErr with
    | some e => .error e
    | none => .error "no address"
  | a :: rest, lastErr =>
    match attemptResult bindRes connRes a with
    | .ok s => .ok s
    | .error e => connectLoop bindRes connRes rest (some e)

/-- `connect_outbound` applied to an already-resolved address list. -/
def connect_outbound (bindRes : RAddr → Except String Unit)
    (connRes : RAddr → Except String Nat) (addrs : List RAddr) : Except String Nat :=
  connectLoop bindRes connRes addrs none

/-- `lookup_host(..).await?` composed with the loop: a resolver failure
propagates before any attempt is made. -/
def connect_outbound_resolved (resolved : Except String (List RAddr))
    (bindRes : RAddr → Except String Unit) (connRes : RAddr → Except String Nat) :
    Except String Nat :=
  match resolved with
  | .error e => .error e
  | .ok addrs => connect_outbound bindRes connRes addrs

/-! ## Listener loop admission (src/socks5.rs:73-111) -/

/-- Events seen by a listener loop: an accepted connection passing through
admission, or a spawned handler terminating (releasing its permit by the
RAII drop of `_permit`). -/
inductive ConnEvent
  | accept
  | finish
deriving DecidableEq, Repr

inductive AcceptOutcome
  | handled
  | dropped
deriving DecidableEq, Repr

/-- `Semaphore::try_acquire_owned` on a semaphore of capacity `cap` with
`live` permits held: succeeds exactly when a permit is free; on failure the
accepted socket is dropped (src/socks5.rs:93-108). -/
def tryAcquire (cap live : Nat) : AcceptOutcome × Nat :=
  if live < cap then (.handled, live + 1) else (.dropped, live)

/-- Effect of one listener-loop event on the number of live handlers. -/
def listenerStep (cap live : Nat) : ConnEvent → Nat
  | .accept => (tryAcquire cap live).2
  | .finish => live - 1

/-- Live-handler count after a trace of events. -/
def runListener (cap live : Nat) : List ConnEvent → Nat
  | [] => live
  | e :: es => runListener cap (listenerStep cap live e) es

/-! # Theorems -/

/-! ## Terminator-scan lemmas -/

theorem hasHdrEnd_append_right {t : List Nat} (l : List Nat) (h : hasHdrEnd t = true) :
    hasHdrEnd (l ++ t) = true := by
  induction l with
  | nil => simpa using h
  | cons a l ih => simp [hasHdrEnd, ih]

theorem hasHdrEnd_append_left {l : List Nat} (t : List Nat) (h : hasHdrEnd l = true) :
    hasHdrEnd (l ++ t) = true := by
  induction l with
  | nil => simp [hasHdrEnd] at h
  | cons a rest ih =>
    rw [hasHdrEnd, Bool.or_eq_true] at h
    rw [List.cons_append, hasHdrEnd, Bool.or_eq_true]
    rcases h with h | h
    · left
      have hp := List.isPrefixOf_iff_prefix.mp h
      refine List.isPrefixOf_iff_prefix.mpr (hp.trans ?_)
      rw [← List.cons_append]
      exact List.prefix_append _ _
    · right
      cases rest with
      | nil => simp [hasHdrEnd] at h
      | cons b r => exact ih h

theorem hasHdrEnd_cr_mem {l : List Nat} (h : hasHdrEnd l = true) : 13 ∈ l := by
  induction l with
  | nil => simp [hasHdrEnd] at h
  | cons a rest ih =>
    rw [hasHdrEnd, Bool.or_eq_true] at h
    rcases h with h | h
    · cases rest with
      | nil => simp [List.isPrefixOf] at h
      | cons b r =>
        simp only [List.isPrefixOf, Bool.and_eq_true, beq_iff_eq] at h
        simp [h.1.symm]
    · exact List.mem_cons_of_mem _ (ih h)

theorem hasHdrEnd_all_eq {l : List Nat} (h : ∀ x ∈ l, x = 97) : hasHdrEnd l = false := by
  by_contra hc
  have : 13 ∈ l := hasHdrEnd_cr_mem (by revert hc; cases hasHdrEnd l <;> simp)
  have := h 13 this
  omega

/-! ## Preamble accumulation lemmas -/

theorem read_http_headers_cons (buf c : List Nat) (rest : List (List Nat)) :
    read_http_headers buf (c :: rest) =
      if c.isEmpty then .error "client closed before headers"
      else if hasHdrEnd (buf ++ c) then .ok (buf ++ c)
      else if (buf ++ c).length > 64 * 1024 then .error "headers too large"
      else read_http_headers (buf ++ c) rest := by
  rw [read_http_headers]

/-- Successful accumulation is bounded: with all read chunks at most 1024
bytes, a returned preamble buffer from accumulator `buf` with
`buf.length ≤ 65536` never exceeds 66560 bytes, and contains the terminator. -/
theorem read_http_headers_ok_bound {chunks : List (List Nat)} :
    ∀ {buf out : List Nat}, (∀ c ∈ chunks, c.length ≤ 1024) → buf.length ≤ 64 * 1024 →
    read_http_headers buf chunks = .ok out →
    out.length ≤ 64 * 1024 + 1024 ∧ hasHdrEnd out = true := by
  induction chunks with
  | nil => intro buf out _ _ h; simp [read_http_headers] at h
  | cons c rest ih =>
    intro buf out hsz hb h
    rw [read_http_headers_cons] at h
    by_cases hce : c.isEmpty
    · rw [if_pos hce] at h; exact absurd h (by simp)
    · rw [if_neg hce] at h
      by_cases hterm : hasHdrEnd (buf ++ c) = true
      · rw [if_pos hterm] at h
        have hout : buf ++ c = out := by simpa using h
        refine ⟨?_, hout ▸ hterm⟩
        have := hsz c (List.mem_cons_self c rest)
        rw [← hout]
        simp only [List.length_append]
        omega
      · rw [if_neg hterm] at h
        by_cases hlen : (buf ++ c).length > 64 * 1024
        · rw [if_pos hlen] at h; exact absurd h (by simp)
        · rw [if_neg hlen] at h
          exact ih (fun d hd => hsz d (List.mem_cons_of_mem _ hd)) (by omega) h

/-- Overflow detection: if the concatenation of all chunks never contains the
terminator but its total length (together with the accumulator) exceeds
65536 bytes, accumulation fails with `headers too large`. -/
theorem read_http_headers_overflow {chunks : List (List Nat)} :
    ∀ {buf : List Nat}, (∀ c ∈ chunks, c ≠ []) →
    hasHdrEnd (buf ++ chunks.flatten) = false →
    (buf ++ chunks.flatten).length > 64 * 1024 →
    buf.length ≤ 64 * 1024 →
    read_http_headers buf chunks = .error "headers too large" := by
  induction chunks with
  | nil =>
    intro buf _ _ hlen hb
    simp only [List.flatten_nil, List.append_nil] at hlen
    omega
  | cons c rest ih =>
    intro buf hne hterm hlen hb
    rw [read_http_headers_cons]
    have hce : c.isEmpty = false := by
      have := hne c (List.mem_cons_self c rest)
      cases c with
      | nil => exact absurd rfl this
      | cons x xs => rfl
    rw [if_neg (by simp [hce])]
    have hassoc : buf ++ (c :: rest).flatten = (buf ++ c) ++ rest.flatten := by
      simp [List.flatten_cons]
    have hterm' : ¬ hasHdrEnd (buf ++ c) = true := by
      intro h1
      have h2 := hasHdrEnd_append_left rest.flatten h1
      rw [hassoc, h2] at hterm
      exact absurd hterm (by simp)
    rw [if_neg hterm']
    by_cases hlc : (buf ++ c).length > 64 * 1024
    · rw [if_pos hlc]
    · rw [if_neg hlc]
      refine ih (fun d hd => hne d (List.mem_cons_of_mem _ hd)) ?_ ?_ (by omega)
      · rw [← hassoc]; exact hterm
      · rw [hassoc] at hlen; exact hlen

/-- Feeding `n` 1024-byte chunks of `a` (97) and then the bare terminator
succeeds as long as the pre-terminator bytes fit under the 65536 check. -/
theorem read_http_headers_all97 : ∀ (n : Nat) (buf : List Nat), (∀ x ∈ buf, x = 97) →
    buf.length + n * 1024 ≤ 64 * 1024 →
    read_http_headers buf (List.replicate n (List.replicate 1024 97) ++ [[13, 10, 13, 10]]) =
      .ok (buf ++ List.replicate (n * 1024) 97 ++ [13, 10, 13, 10]) := by
  intro n
  induction n with
  | zero =>
    intro buf _ _
    rw [List.replicate_zero, List.nil_append, read_http_headers_cons]
    rw [if_neg (by decide)]
    rw [if_pos (hasHdrEnd_append_right buf (by decide))]
    simp
  | succ n ih =>
    intro buf hall hlen
    rw [List.replicate_succ, List.cons_append, read_http_headers_cons]
    rw [if_neg (by decide)]
    have hall' : ∀ x ∈ buf ++ List.replicate 1024 97, x = 97 := by
      intro x hx
      rcases List.mem_append.mp hx with hx | hx
      · exact hall x hx
      · exact List.eq_of_mem_replicate hx
    rw [if_neg (by rw [hasHdrEnd_all_eq hall']; decide)]
    rw [if_neg (by simp only [List.length_append, List.length_replicate]; omega)]
    rw [ih (buf ++ List.replicate 1024 97) hall'
      (by simp only [List.length_append, List.length_replicate]; omega)]
    have hm : (n + 1) * 1024 = 1024 + n * 1024 := by ring
    rw [hm, List.replicate_add, ← List.append_assoc]

/-! ## Claim C2 -/

/-- Claim C2 counterexample: a well-formed chunk stream (reads of at most
1024 bytes each, none empty) whose accumulated request preamble is accepted
by `read_http_headers` even though it is 65540 bytes long, refuting
"any request preamble is at most 65,536 bytes". -/
theorem spec_c2_counterexample :
    (c2Chunks.all fun c => decide (c.length ≤ 1024) && !c.isEmpty) = true ∧
    read_http_headers [] c2Chunks = .ok c2Buf ∧ c2Buf.length = 65540 := by
  refine ⟨?_, ?_, ?_⟩
  · rw [List.all_eq_true]
    intro c hc
    rcases List.mem_append.mp hc with hc | hc
    · rw [List.eq_of_mem_replicate hc]
      have e2 : (List.replicate 1024 (97 : Nat)).isEmpty = false := by
        rw [show (1024 : Nat) = 1023 + 1 from rfl, List.replicate_succ, List.isEmpty_cons]
      simp only [List.length_replicate, e2]
      decide
    · simp only [List.mem_singleton] at hc
      rw [hc]
      decide
  · have h := read_http_headers_all97 64 [] (by simp) (by norm_num)
    rw [List.nil_append] at h
    unfold c2Chunks c2Buf
    norm_num at h
    exact h
  · unfold c2Buf
    rw [List.length_append, List.length_replicate]
    decide

/-- Claim C2 (amended): the HTTP front-end preamble accumulation is bounded
at 66,560 bytes (65,536 plus one final read of at most 1,024 bytes): any
accepted preamble buffer is at most 66,560 bytes and contains CRLF CRLF,
and a stream whose bytes exceed 65,536 without containing CRLF CRLF fails
the connection with `headers too large`. -/
theorem spec_c2_preamble_bound (chunks : List (List Nat)) :
    ((∀ c ∈ chunks, c.length ≤ 1024) → ∀ out, read_http_headers [] chunks = .ok out →
      out.length ≤ 66560 ∧ hasHdrEnd out = true) ∧
    ((∀ c ∈ chunks, c ≠ []) → hasHdrEnd chunks.flatten = false →
      chunks.flatten.length > 65536 →
      read_http_headers [] chunks = .error "headers too large") := by
  constructor
  · intro hsz out h
    have := read_http_headers_ok_bound hsz (by simp) h
    exact ⟨by have h1 := this.1; omega, this.2⟩
  · intro hne hterm hlen
    refine read_http_headers_overflow hne ?_ ?_ (by simp)
    · simpa using hterm
    · simpa using hlen

/-- Witness for the amended C2 bound at concrete inputs: a one-chunk stream
holding just the terminator is accepted within the bound, and a stream of 65
full 1024-byte reads with no terminator fails with `headers too large`. -/
theorem spec_c2_preamble_bound_witness :
    (([13, 10, 13, 10] : List Nat).length ≤ 66560 ∧ hasHdrEnd [13, 10, 13, 10] = true) ∧
    read_http_headers [] (List.replicate 65 (List.replicate 1024 97)) =
      .error "headers too large" := by
  constructor
  · exact (spec_c2_preamble_bound [[13, 10, 13, 10]]).1
      (by intro c hc; simp only [List.mem_singleton] at hc; rw [hc]; decide)
      [13, 10, 13, 10] (by rfl)
  · refine (spec_c2_preamble_bound (List.replicate 65 (List.replicate 1024 97))).2 ?_ ?_ ?_
    · intro c hc
      rw [List.eq_of_mem_replicate hc]
      exact List.length_pos.mp (by rw [List.length_replicate]; norm_num)
    · apply hasHdrEnd_all_eq
      intro x hx
      rcases List.mem_flatten.mp hx with ⟨l, hl, hxl⟩
      rw [List.eq_of_mem_replicate hl] at hxl
      exact List.eq_of_mem_replicate hxl
    · rw [List.length_flatten, List.map_replicate, List.length_replicate, List.sum_replicate]
      norm_num

/-! ## Claim C1 -/

/-- Claim C1 (code bug): on the failing input `c1Raw` (a non-CONNECT request
whose single preamble read also captured the body bytes `BODY`),
src/http_proxy.rs:101-102 writes the rewritten preamble upstream but then
writes the already-buffered body bytes back to the client, while the
src/proxy.rs revision of the same handler writes them upstream, as the
claim and the spec's FORWARD step state. -/
theorem spec_c1_body_bytes_to_client :
    split_headers_body c1Raw = some (28, [66, 79, 68, 89]) ∧
    forwardWritesHttpProxyRs c1Pre [66, 79, 68, 89] =
      [(Dest.toUpstream, c1Pre), (Dest.toClient, [66, 79, 68, 89])] ∧
    forwardWritesProxyRs c1Pre [66, 79, 68, 89] =
      [(Dest.toUpstream, c1Pre), (Dest.toUpstream, [66, 79, 68, 89])] := by
  refine ⟨by decide, rfl, rfl⟩

/-! ## Claim C3 -/

theorem runListener_le {K : Nat} (evs : List ConnEvent) :
    ∀ {live : Nat}, live ≤ K → runListener K live evs ≤ K := by
  induction evs with
  | nil => intro live h; simpa [runListener] using h
  | cons e es ih =>
    intro live h
    rw [runListener]
    apply ih
    cases e with
    | accept =>
      rw [listenerStep, tryAcquire]
      by_cases hl : live < K
      · rw [if_pos hl]
        simpa using hl
      · rw [if_neg hl]
        simpa using h
    | finish =>
      rw [listenerStep]
      omega

/-- Claim C3: in the admission model of the listener loop, a semaphore of
capacity `K` keeps the number of live handlers at most `K` along any event
trace; an accept arriving with `K` handlers live is dropped (the socket is
closed, not queued); an accept is handled exactly when a permit is free;
and a handler finishing releases exactly its one permit. -/
theorem spec_c3_admission_cap (K live : Nat) (evs : List ConnEvent) :
    runListener K 0 evs ≤ K ∧
    (tryAcquire K K).1 = AcceptOutcome.dropped ∧
    ((tryAcquire K live).1 = AcceptOutcome.handled ↔ live < K) ∧
    listenerStep K live ConnEvent.finish = live - 1 := by
  refine ⟨runListener_le evs (Nat.zero_le K), ?_, ?_, rfl⟩
  · rw [tryAcquire, if_neg (lt_irrefl K)]
  · constructor
    · intro h
      by_contra hl
      rw [tryAcquire, if_neg hl] at h
      simp at h
    · intro h
      rw [tryAcquire, if_pos h]

/-- Witness for C3 at capacity 2: three accepts and a finish stay within
the cap, an accept at capacity is dropped, an accept below capacity is
handled, and a finish releases one permit. -/
theorem spec_c3_admission_cap_witness :
    runListener 2 0 [ConnEvent.accept, ConnEvent.accept, ConnEvent.accept,
      ConnEvent.finish] ≤ 2 ∧
    (tryAcquire 2 2).1 = AcceptOutcome.dropped ∧
    ((tryAcquire 2 1).1 = AcceptOutcome.handled ↔ 1 < 2) ∧
    listenerStep 2 1 ConnEvent.finish = 1 - 1 :=
  spec_c3_admission_cap 2 1
    [ConnEvent.accept, ConnEvent.accept, ConnEvent.accept, ConnEvent.finish]

/-! ## Claim C7 -/

theorem connectLoop_skip_failures (bindRes : RAddr → Except String Unit)
    (connRes : RAddr → Except String Nat) :
    ∀ (pre : List RAddr) (lastErr : Option String),
      (∀ b ∈ pre, ∃ e, attemptResult bindRes connRes b = .error e) →
      ∀ (a : RAddr) (post : List RAddr) (s : Nat),
        attemptResult bindRes connRes a = .ok s →
        connectLoop bindRes connRes (pre ++ a :: post) lastErr = .ok s := by
  intro pre
  induction pre with
  | nil =>
    intro lastErr _ a post s ha
    rw [List.nil_append, connectLoop, ha]
  | cons b pre ih =>
    intro lastErr hfail a post s ha
    obtain ⟨e, he⟩ := hfail b (List.mem_cons_self b pre)
    rw [List.cons_append, connectLoop, he]
    exact ih (some e) (fun x hx => hfail x (List.mem_cons_of_mem _ hx)) a post s ha

theorem connectLoop_all_fail (bindRes : RAddr → Except String Unit)
    (connRes : RAddr → Except String Nat) :
    ∀ (addrs : List RAddr), addrs ≠ [] →
      (∀ x ∈ addrs, ∃ e, attemptResult bindRes connRes x = .error e) →
      ∀ lastErr : Option String, ∃ c e, addrs.getLast? = some c ∧
        attemptResult bindRes connRes c = .error e ∧
        connectLoop bindRes connRes addrs lastErr = .error e := by
  intro addrs
  induction addrs with
  | nil => intro h; exact absurd rfl h
  | cons a rest ih =>
    intro _ hfail lastErr
    obtain ⟨e0, he0⟩ := hfail a (List.mem_cons_self a rest)
    cases rest with
    | nil =>
      refine ⟨a, e0, rfl, he0, ?_⟩
      rw [connectLoop, he0]
      rfl
    | cons b r =>
      obtain ⟨c, e, hlast, hce, hloop⟩ := ih (by simp)
        (fun x hx => hfail x (List.mem_cons_of_mem _ hx)) (some e0)
      refine ⟨c, e, ?_, hce, ?_⟩
      · rw [List.getLast?_cons_cons]
        exact hlast
      · rw [connectLoop, he0]
        exact hloop

/-- Claim C7: the dialer tries the resolved addresses in resolver order,
attempting on each a fresh socket of the address family with the interface
bind applied before connect (`attemptResult` consults `bindRes` first and
`connRes` only on bind success); it returns the first successfully
connected stream; if every candidate fails it returns the error of the
last candidate; and an empty resolution yields the error `no address`. -/
theorem spec_c7_connect_outbound (bindRes : RAddr → Except String Unit)
    (connRes : RAddr → Except String Nat) :
    connect_outbound bindRes connRes [] = .error "no address" ∧
    (∀ (pre post : List RAddr) (a : RAddr) (s : Nat),
      (∀ b ∈ pre, ∃ e, attemptResult bindRes connRes b = .error e) →
      attemptResult bindRes connRes a = .ok s →
      connect_outbound bindRes connRes (pre ++ a :: post) = .ok s) ∧
    (∀ addrs : List RAddr, addrs ≠ [] →
      (∀ x ∈ addrs, ∃ e, attemptResult bindRes connRes x = .error e) →
      ∃ c e, addrs.getLast? = some c ∧ attemptResult bindRes connRes c = .error e ∧
        connect_outbound bindRes connRes addrs = .error e) := by
  refine ⟨rfl, ?_, ?_⟩
  · intro pre post a s hf ha
    exact connectLoop_skip_failures bindRes connRes pre none hf a post s ha
  · intro addrs hne hf
    exact connectLoop_all_fail bindRes connRes addrs hne hf none

/-- Witness for C7 at concrete oracles and address lists: the second address
connects after the first fails, the empty list reports `no address`, and an
all-fail list reports its last error. -/
theorem spec_c7_connect_outbound_witness :
    connect_outbound (fun _ => .ok ())
      (fun a => if a.id = 0 then .error "refused" else .ok a.id)
      [⟨IpFamily.v4, 0⟩, ⟨IpFamily.v6, 7⟩] = .ok 7 ∧
    connect_outbound (fun _ => .ok ())
      (fun a => if a.id = 0 then .error "refused" else .ok a.id) [] = .error "no address" ∧
    (∃ c e, ([⟨IpFamily.v4, 0⟩] : List RAddr).getLast? = some c ∧
      attemptResult (fun _ => .error "bindfail") (fun a => .ok a.id) c = .error e ∧
      connect_outbound (fun _ => .error "bindfail") (fun a => .ok a.id)
        [⟨IpFamily.v4, 0⟩] = .error e) := by
  refine ⟨?_, ?_, ?_⟩
  · exact (spec_c7_connect_outbound _ _).2.1 [⟨IpFamily.v4, 0⟩] [] ⟨IpFamily.v6, 7⟩ 7
      (by intro b hb; simp only [List.mem_singleton] at hb; exact ⟨"refused", by rw [hb]; rfl⟩)
      rfl
  · exact (spec_c7_connect_outbound _ _).1
  · exact (spec_c7_connect_outbound _ _).2.2 [⟨IpFamily.v4, 0⟩] (by simp)
      (by intro x hx; exact ⟨"bindfail", rfl⟩)

/-! ## Claim C9 -/

/-- Claim C9: with exactly one of the username and password configured, the
SOCKS5 front-end demands authentication, but the credential comparison can
never succeed: every subnegotiation, whatever the client sent, gets the
failure reply `01 01` and the connection is closed with
`invalid username/password`. -/
theorem spec_c9_lopsided_credentials (user pass : Option (List Nat))
    (h : (user.isSome = true ∧ pass = none) ∨ (user = none ∧ pass.isSome = true)) :
    needAuth user pass = true ∧
    ∀ ubytes pbytes : List Nat,
      authOk user pass ubytes pbytes = false ∧
      subnegResult user pass ubytes pbytes = ([1, 1], .error "invalid username/password") := by
  rcases h with ⟨hu, hp⟩ | ⟨hu, hp⟩
  · subst hp
    refine ⟨by simp [needAuth, hu], ?_⟩
    intro ub pb
    have hok : authOk user none ub pb = false := by
      simp [authOk]
    exact ⟨hok, by simp [subnegResult, hok]⟩
  · subst hu
    refine ⟨by simp [needAuth, hp], ?_⟩
    intro ub pb
    have hok : authOk none pass ub pb = false := by
      simp [authOk]
    exact ⟨hok, by simp [subnegResult, hok]⟩

/-- Witness for C9 with only a username (`u`, byte 117) configured, against
a client sending username `u` and password `p`. -/
theorem spec_c9_lopsided_credentials_witness :
    needAuth (some [117]) none = true ∧
    authOk (some [117]) none [117] [112] = false ∧
    subnegResult (some [117]) none [117] [112] =
      ([1, 1], .error "invalid username/password") := by
  have h := spec_c9_lopsided_credentials (some [117]) none (Or.inl ⟨rfl, rfl⟩)
  exact ⟨h.1, (h.2 [117] [112]).1, (h.2 [117] [112]).2⟩

/-! ## Claim C10 -/

/-- Claim C10: an origin-form request (URI starting with `/`) with no
extractable Host header is not rejected at parse time: target derivation
succeeds with the empty host string and port 80, so the connection can fail
only later, inside the dialer, whose resolver errors are propagated as-is
by `connect_outbound_resolved`. -/
theorem spec_c10_origin_empty_host (uri : Str) (lines : List Str)
    (hu : uri.head? = some '/') (hh : parse_host_lines lines = none) :
    deriveTargetLines uri lines = .ok ([], 80, uri) ∧
    ∀ (e : String) (bindRes : RAddr → Except String Unit)
      (connRes : RAddr → Except String Nat),
      connect_outbound_resolved (.error e) bindRes connRes = .error e := by
  constructor
  · obtain ⟨c, t, rfl⟩ : ∃ c t, uri = c :: t := by
      cases uri with
      | nil => simp at hu
      | cons c t => exact ⟨c, t, rfl⟩
    simp only [List.head?_cons, Option.some_inj] at hu
    subst hu
    have hng : ¬ ((['h', 't', 't', 'p', ':', '/', '/'] : Str).isPrefixOf ('/' :: t) = true) := by
      simp only [List.isPrefixOf, Bool.and_eq_true, beq_iff_eq]
      rintro ⟨h1, -⟩
      exact absurd h1 (by decide)
    have hsp : stripPre ['h', 't', 't', 'p', ':', '/', '/'] ('/' :: t) = none := by
      rw [stripPre, if_neg hng]
    have hsp' : stripPre ("http://".toList) ('/' :: t) = none := hsp
    simp [deriveTargetLines, hsp, hsp', hh, splitOnceColon]
  · intro e bindRes connRes
    rfl

/-- Witness for C10 at a concrete origin-form request with no Host header
and a concrete resolver failure. -/
theorem spec_c10_origin_empty_host_witness :
    deriveTargetLines ("/index.html".toList) ["GET / HTTP/1.1".toList] =
      .ok ([], 80, "/index.html".toList) ∧
    connect_outbound_resolved (.error "dns") (fun _ => .ok ()) (fun a => .ok a.id) =
      .error "dns" := by
  have h := spec_c10_origin_empty_host ("/index.html".toList) ["GET / HTTP/1.1".toList]
    (by rfl) (by rfl)
  exact ⟨h.1, h.2 "dns" _ _⟩

/-! ## Claim C5 -/

theorem takeBytes_exact (l r : List Nat) (n : Nat) (h : l.length = n) :
    takeBytes n (l ++ r) = .ok (l, r) := by
  rw [takeBytes, if_pos (by rw [List.length_append]; omega)]
  rw [List.take_left' h, List.drop_left' h]

theorem takeBytes_cons_one (x : Nat) (xs : List Nat) : takeBytes 1 (x :: xs) = .ok ([x], xs) := by
  rw [takeBytes, if_pos (by simp)]
  simp

theorem takeBytes_two (p1 p2 : Nat) (rest : List Nat) :
    takeBytes 2 (p1 :: p2 :: rest) = .ok ([p1, p2], rest) := by
  rw [takeBytes, if_pos (by simp [List.length_cons])]
  simp [List.take_succ_cons, List.drop_succ_cons]

theorem takeBytes_four (a b c d : Nat) (rest : List Nat) :
    takeBytes 4 (a :: b :: c :: d :: rest) = .ok ([a, b, c, d], rest) := by
  rw [takeBytes, if_pos (by simp [List.length_cons])]
  simp [List.take_succ_cons, List.drop_succ_cons]

/-- Claim C5: the SOCKS5 request parser accepts exactly the address types
ATYP 1, 3 and 4: ATYP 4 is parsed as 16 IPv6 address bytes followed by a
2-byte big-endian port and the request proceeds to command dispatch, ATYP 1
and 3 are likewise parsed, and any ATYP outside the set fails with
`Unsupported ATYP`. -/
theorem spec_c5_atyp (atyp cmd : Nat) (input : List Nat) :
    (atyp ≠ 1 → atyp ≠ 3 → atyp ≠ 4 →
      socks5ParseAddr atyp input = .error "Unsupported ATYP") ∧
    (∀ (ab : List Nat) (p1 p2 : Nat) (rest : List Nat), ab.length = 16 →
      input = ab ++ p1 :: p2 :: rest →
      socks5ParseAddr 4 input = .ok (.v6 ab, 256 * p1 + p2, rest) ∧
      socks5Request cmd 4 input = socks5Dispatch cmd (.v6 ab, 256 * p1 + p2)) ∧
    (∀ (a b c d p1 p2 : Nat) (rest : List Nat),
      input = a :: b :: c :: d :: p1 :: p2 :: rest →
      socks5ParseAddr 1 input = .ok (.v4 a b c d, 256 * p1 + p2, rest)) ∧
    (∀ (dom : List Nat) (p1 p2 : Nat) (rest : List Nat),
      input = dom.length :: (dom ++ p1 :: p2 :: rest) →
      socks5ParseAddr 3 input = .ok (.domain dom, 256 * p1 + p2, rest)) := by
  refine ⟨?_, ?_, ?_, ?_⟩
  · intro h1 h3 h4
    rw [socks5ParseAddr, if_neg h1, if_neg h3, if_neg h4]
  · rintro ab p1 p2 rest hlen rfl
    have hparse : socks5ParseAddr 4 (ab ++ p1 :: p2 :: rest) =
        .ok (.v6 ab, 256 * p1 + p2, rest) := by
      simp [socks5ParseAddr, takeBytes_exact ab (p1 :: p2 :: rest) 16 hlen, takeBytes_two, be16]
    refine ⟨hparse, ?_⟩
    rw [socks5Request, hparse]
  · rintro a b c d p1 p2 rest rfl
    simp [socks5ParseAddr, takeBytes_four, takeBytes_two, be16]
  · rintro dom p1 p2 rest rfl
    simp [socks5ParseAddr, takeBytes_cons_one,
      takeBytes_exact dom (p1 :: p2 :: rest) dom.length rfl, takeBytes_two, be16]

/-- Witness for C5: ATYP 0 is rejected; a concrete IPv6, IPv4 and domain
request each parse, the IPv6 one reaching CONNECT dispatch. -/
theorem spec_c5_atyp_witness :
    socks5ParseAddr 0 [] = .error "Unsupported ATYP" ∧
    socks5ParseAddr 4 (List.replicate 16 0 ++ [31, 144]) =
      .ok (.v6 (List.replicate 16 0), 256 * 31 + 144, []) ∧
    socks5Request 1 4 (List.replicate 16 0 ++ [31, 144]) =
      socks5Dispatch 1 (.v6 (List.replicate 16 0), 256 * 31 + 144) ∧
    socks5ParseAddr 1 [127, 0, 0, 1, 31, 144] = .ok (.v4 127 0 0 1, 256 * 31 + 144, []) ∧
    socks5ParseAddr 3 [3, 97, 98, 99, 31, 144] =
      .ok (.domain [97, 98, 99], 256 * 31 + 144, []) := by
  have h4 := (spec_c5_atyp 4 1 (List.replicate 16 0 ++ [31, 144])).2.1
    (List.replicate 16 0) 31 144 [] (by rw [List.length_replicate]) rfl
  refine ⟨(spec_c5_atyp 0 1 []).1 (by decide) (by decide) (by decide), h4.1, h4.2, ?_, ?_⟩
  · exact (spec_c5_atyp 1 1 [127, 0, 0, 1, 31, 144]).2.2.1 127 0 0 1 31 144 [] rfl
  · exact (spec_c5_atyp 3 1 [3, 97, 98, 99, 31, 144]).2.2.2 [97, 98, 99] 31 144 [] rfl

/-! ## Claim C6 -/

theorem rollWindow_same (s : LogState) (now : Nat) (h : s.window = now) :
    rollWindow s now = (s, none) := by
  rw [rollWindow, if_neg (show ¬ now ≠ s.window from fun hx => hx h.symm)]

theorem rollWindow_roll (s : LogState) (now : Nat) (h : s.window ≠ now) :
    rollWindow s now =
      ({ window := now, count := 0, suppressed := 0 },
        if s.suppressed > 0 then some s.suppressed else none) := by
  rw [rollWindow, if_pos (fun hx => h hx.symm)]

theorem log_throttled_same_emit (s : LogState) (now : Nat) (h : s.window = now)
    (hc : s.count < LOGS_PER_SEC) :
    log_throttled s now = ({ s with count := s.count + 1 }, true, none) := by
  rw [log_throttled, rollWindow_same s now h]
  simp [hc]

theorem log_throttled_same_sup (s : LogState) (now : Nat) (h : s.window = now)
    (hc : ¬ s.count < LOGS_PER_SEC) :
    log_throttled s now =
      ({ s with count := s.count + 1, suppressed := s.suppressed + 1 }, false, none) := by
  rw [log_throttled, rollWindow_same s now h]
  simp [hc]

theorem log_throttled_roll_eq (s : LogState) (now : Nat) (h : s.window ≠ now) :
    log_throttled s now =
      ({ window := now, count := 1, suppressed := 0 }, true,
        if s.suppressed > 0 then some s.suppressed else none) := by
  rw [log_throttled, rollWindow_roll s now h]
  simp [LOGS_PER_SEC]

theorem runLog_cons (s : LogState) (t : Nat) (ts : List Nat) :
    runLog s (t :: ts) =
      ((runLog (log_throttled s t).1 ts).1,
        (if (log_throttled s t).2.1 then 1 else 0) + (runLog (log_throttled s t).1 ts).2.1,
        (if ((log_throttled s t).2.2).isSome then 1 else 0) +
          (runLog (log_throttled s t).1 ts).2.2) := by
  rw [runLog]

/-- Within one second (no window roll), the emit budget left is
`LOGS_PER_SEC - count`. -/
theorem runLog_emits_same (now : Nat) :
    ∀ (ts : List Nat) (s : LogState), (∀ t ∈ ts, t = now) → s.window = now →
      (runLog s ts).2.1 ≤ LOGS_PER_SEC - s.count := by
  intro ts
  induction ts with
  | nil => intro s _ _; simp [runLog]
  | cons t ts ih =>
    intro s hall hw
    have ht : t = now := hall t (List.mem_cons_self t ts)
    subst ht
    rw [runLog_cons]
    by_cases hc : s.count < LOGS_PER_SEC
    · rw [log_throttled_same_emit s t hw hc]
      have h2 := ih { s with count := s.count + 1 }
        (fun x hx => hall x (List.mem_cons_of_mem _ hx)) hw
      simp at h2 ⊢
      omega
    · rw [log_throttled_same_sup s t hw hc]
      have h2 := ih { s with count := s.count + 1, suppressed := s.suppressed + 1 }
        (fun x hx => hall x (List.mem_cons_of_mem _ hx)) hw
      simp at h2 ⊢
      omega

/-- Within one second (no window roll), no `suppressed N` line is emitted. -/
theorem runLog_lines_same (now : Nat) :
    ∀ (ts : List Nat) (s : LogState), (∀ t ∈ ts, t = now) → s.window = now →
      (runLog s ts).2.2 = 0 := by
  intro ts
  induction ts with
  | nil => intro s _ _; simp [runLog]
  | cons t ts ih =>
    intro s hall hw
    have ht : t = now := hall t (List.mem_cons_self t ts)
    subst ht
    rw [runLog_cons]
    by_cases hc : s.count < LOGS_PER_SEC
    · rw [log_throttled_same_emit s t hw hc]
      have h2 := ih { s with count := s.count + 1 }
        (fun x hx => hall x (List.mem_cons_of_mem _ hx)) hw
      simp at h2 ⊢
      omega
    · rw [log_throttled_same_sup s t hw hc]
      have h2 := ih { s with count := s.count + 1, suppressed := s.suppressed + 1 }
        (fun x hx => hall x (List.mem_cons_of_mem _ hx)) hw
      simp at h2 ⊢
      omega

theorem runLog_emits_le (now : Nat) (ts : List Nat) (s : LogState)
    (hall : ∀ t ∈ ts, t = now) : (runLog s ts).2.1 ≤ LOGS_PER_SEC := by
  cases ts with
  | nil => simp [runLog]
  | cons t ts =>
    have ht : t = now := hall t (List.mem_cons_self t ts)
    subst ht
    by_cases hw : s.window = t
    · exact le_trans (runLog_emits_same t (t :: ts) s hall hw) (Nat.sub_le _ _)
    · rw [runLog_cons, log_throttled_roll_eq s t hw]
      have h2 := runLog_emits_same t ts { window := t, count := 1, suppressed := 0 }
        (fun x hx => hall x (List.mem_cons_of_mem _ hx)) rfl
      have hL : LOGS_PER_SEC = 50 := rfl
      simp at h2 ⊢
      omega

theorem runLog_lines_le_one (now : Nat) (ts : List Nat) (s : LogState)
    (hall : ∀ t ∈ ts, t = now) : (runLog s ts).2.2 ≤ 1 := by
  cases ts with
  | nil => simp [runLog]
  | cons t ts =>
    have ht : t = now := hall t (List.mem_cons_self t ts)
    subst ht
    by_cases hw : s.window = t
    · rw [runLog_lines_same t (t :: ts) s hall hw]
      omega
    · rw [runLog_cons, log_throttled_roll_eq s t hw]
      have h2 := runLog_lines_same t ts { window := t, count := 1, suppressed := 0 }
        (fun x hx => hall x (List.mem_cons_of_mem _ hx)) rfl
      simp only at h2 ⊢
      rw [h2]
      by_cases hs : s.suppressed > 0 <;> simp [hs]

/-- Claim C6: within one wall-clock second, at most `LOGS_PER_SEC` (50) of
the supplied emit functions are invoked and at most one `suppressed N`
line appears; a call finding the per-second count exhausted does not emit
and increments the suppressed counter instead; and the winner of the
window roll emits the `suppressed N` line exactly when N was positive and
resets both counters (the count then holding this call's own tick). -/
theorem spec_c6_log_throttle (s : LogState) (now : Nat) (ts : List Nat) :
    ((∀ t ∈ ts, t = now) →
      (runLog s ts).2.1 ≤ LOGS_PER_SEC ∧ (runLog s ts).2.2 ≤ 1) ∧
    (s.window = now → LOGS_PER_SEC ≤ s.count →
      (log_throttled s now).2.1 = false ∧
      (log_throttled s now).1.suppressed = s.suppressed + 1 ∧
      (log_throttled s now).2.2 = none) ∧
    (s.window ≠ now →
      (log_throttled s now).2.2 = (if s.suppressed > 0 then some s.suppressed else none) ∧
      (log_throttled s now).1 = { window := now, count := 1, suppressed := 0 } ∧
      (log_throttled s now).2.1 = true) := by
  refine ⟨fun hall => ⟨runLog_emits_le now ts s hall, runLog_lines_le_one now ts s hall⟩, ?_, ?_⟩
  · intro hw hc
    rw [log_throttled_same_sup s now hw (by omega)]
    exact ⟨rfl, rfl, rfl⟩
  · intro hw
    rw [log_throttled_roll_eq s now hw]
    exact ⟨rfl, rfl, rfl⟩

/-- Witness for C6: 60 calls within second 5 emit at most 50 lines and at
most one suppressed line; a call at the exhausted count suppresses; a
window roll from second 4 to 5 with two suppressed messages emits the
`suppressed 2` line and resets the counters. -/
theorem spec_c6_log_throttle_witness :
    (runLog ⟨5, 0, 0⟩ (List.replicate 60 5)).2.1 ≤ LOGS_PER_SEC ∧
    (runLog ⟨5, 0, 0⟩ (List.replicate 60 5)).2.2 ≤ 1 ∧
    (log_throttled ⟨5, 50, 2⟩ 5).2.1 = false ∧
    (log_throttled ⟨5, 50, 2⟩ 5).1.suppressed = 3 ∧
    (log_throttled ⟨4, 7, 2⟩ 5).2.2 = some 2 ∧
    (log_throttled ⟨4, 7, 2⟩ 5).1 = ⟨5, 1, 0⟩ := by
  have h1 := (spec_c6_log_throttle ⟨5, 0, 0⟩ 5 (List.replicate 60 5)).1
    (fun t ht => List.eq_of_mem_replicate ht)
  have h2 := (spec_c6_log_throttle ⟨5, 50, 2⟩ 5 []).2.1 rfl (by norm_num [LOGS_PER_SEC])
  have h3 := (spec_c6_log_throttle ⟨4, 7, 2⟩ 5 []).2.2 (by decide)
  refine ⟨h1.1, h1.2, h2.1, h2.2.1, ?_, h3.2.1⟩
  rw [h3.1]
  decide

/-! ## Claim C4 -/

theorem stripPre_self_append (p r : Str) : stripPre p (p ++ r) = some r := by
  rw [stripPre, if_pos (List.isPrefixOf_iff_prefix.mpr (List.prefix_append p r))]
  rw [List.drop_left]

theorem hostOfLine_none {l : Str} (h1 : ¬ ("Host:".toList).isPrefixOf l = true)
    (h2 : ¬ ("host:".toList).isPrefixOf l = true) : hostOfLine l = none := by
  rw [hostOfLine, stripPre, if_neg h1, stripPre, if_neg h2]

theorem findSome?_hostOfLine_none {lines : List Str}
    (h : ∀ l ∈ lines, ¬ ("Host:".toList).isPrefixOf l = true ∧
      ¬ ("host:".toList).isPrefixOf l = true) :
    List.findSome? hostOfLine lines = none := by
  induction lines with
  | nil => rfl
  | cons l ls ih =>
    have hl := h l (List.mem_cons_self l ls)
    rw [List.findSome?, hostOfLine_none hl.1 hl.2]
    exact ih (fun x hx => h x (List.mem_cons_of_mem _ hx))

/-- Claim C4 counterexample: an origin-form request whose Host header is
spelled `HOST:` yields no extracted host, while the byte-identical request
with the `Host:` spelling yields `example.com` - so the extraction is not
case-insensitive in the header name. -/
theorem spec_c4_counterexample :
    parse_host_from_headers c4HeadersUpper = none ∧
    parse_host_from_headers c4HeadersExact = some ("example.com".toList) := by
  constructor <;> decide

/-- Claim C4 (amended): the Host extraction recognizes the header name in
exactly the two spellings `Host:` and `host:`, each yielding the trimmed
remainder of the first such line; a header block whose lines carry neither
exact spelling yields no host, whatever other casings appear. -/
theorem spec_c4_host_extraction (first r : Str) (lines : List Str) :
    parse_host_lines (first :: ("Host:".toList ++ r) :: lines) = some (rustTrim r) ∧
    parse_host_lines (first :: ("host:".toList ++ r) :: lines) = some (rustTrim r) ∧
    ((∀ l ∈ lines, ¬ ("Host:".toList).isPrefixOf l = true ∧
        ¬ ("host:".toList).isPrefixOf l = true) →
      parse_host_lines (first :: lines) = none) := by
  refine ⟨?_, ?_, ?_⟩
  · have hh : hostOfLine ("Host:".toList ++ r) = some (rustTrim r) := by
      rw [hostOfLine, stripPre_self_append]
    show List.findSome? hostOfLine (("Host:".toList ++ r) :: lines) = some (rustTrim r)
    rw [List.findSome?, hh]
  · have hng : ¬ (("Host:".toList).isPrefixOf ("host:".toList ++ r) = true) := by
      show ¬ ((['H', 'o', 's', 't', ':'] : Str).isPrefixOf
        ('h' :: 'o' :: 's' :: 't' :: ':' :: r) = true)
      simp only [List.isPrefixOf, Bool.and_eq_true, beq_iff_eq]
      rintro ⟨h1, -⟩
      exact absurd h1 (by decide)
    have hh : hostOfLine ("host:".toList ++ r) = some (rustTrim r) := by
      rw [hostOfLine, stripPre, if_neg hng, stripPre_self_append]
    show List.findSome? hostOfLine (("host:".toList ++ r) :: lines) = some (rustTrim r)
    rw [List.findSome?, hh]
  · intro hno
    exact findSome?_hostOfLine_none hno

/-- Witness for the amended C4 at concrete header lines: both exact
spellings extract `example.com`, and a block with only a `User-Agent` line
extracts nothing. -/
theorem spec_c4_host_extraction_witness :
    parse_host_lines ["GET".toList, "Host:".toList ++ " example.com".toList] =
      some (rustTrim (" example.com".toList)) ∧
    parse_host_lines ["GET".toList, "host:".toList ++ " example.com".toList] =
      some (rustTrim (" example.com".toList)) ∧
    parse_host_lines ["GET".toList, "User-Agent: x".toList] = none := by
  have h1 := spec_c4_host_extraction ("GET".toList) (" example.com".toList) []
  have h2 := (spec_c4_host_extraction ("GET".toList) [] ["User-Agent: x".toList]).2.2
    (by decide)
  exact ⟨h1.1, h1.2.1, h2⟩

/-! ## Claim C8 -/

theorem isHostLine_of_hostcolon (rest : Str) : isHostLine ("Host: ".toList ++ rest) = true := by
  rw [isHostLine, asciiLower, List.map_append]
  rw [show (("Host: ".toList).map asciiLowerChar) = "host: ".toList from by decide]
  exact List.isPrefixOf_iff_prefix.mpr
    (List.IsPrefix.trans ⟨[' '], rfl⟩ (List.prefix_append _ _))

theorem isHostLine_synth (host : Str) (port : Nat) :
    isHostLine (synthHostLine host port) = true := by
  rw [synthHostLine]
  by_cases hp : port = 80
  · rw [if_pos hp]
    exact isHostLine_of_hostcolon host
  · rw [if_neg hp, List.append_assoc]
    exact isHostLine_of_hostcolon (host ++ ':' :: Nat.toDigits 10 port)

theorem kept_no_host {rest : List Str}
    (hno : ¬ (rest.any fun l => !l.isEmpty && isHostLine l) = true) :
    ∀ l ∈ rest.filter (fun l => !l.isEmpty && !isStrippedHopHeader l),
      ¬ isHostLine l = true := by
  intro l hl hh
  rcases List.mem_filter.mp hl with ⟨hmem, hcond⟩
  apply hno
  rw [List.any_eq_true]
  refine ⟨l, hmem, ?_⟩
  rw [Bool.and_eq_true] at hcond ⊢
  exact ⟨hcond.1, hh⟩

/-- Claim C8: for a non-CONNECT request whose absolute URI derives host `H`
and port `P` and that carries no Host header, the header lines of the
rewritten preamble contain exactly one Host line - `Host: H:P` when
`P ≠ 80` and `Host: H` when `P = 80`; when the original request did carry a
Host header, nothing is synthesized: the header lines are exactly the kept
original lines. -/
theorem spec_c8_host_synthesis (uri method version path H : Str) (P : Nat) (lines : List Str)
    (habs : (stripPre ("http://".toList) uri).isSome = true)
    (hderive : deriveTargetLines uri lines = .ok (H, P, path)) :
    (¬ ((lines.drop 1).any fun l => !l.isEmpty && isHostLine l) = true →
      ((rebuildLines lines method path version H P).drop 1).filter isHostLine =
        [if P = 80 then "Host: ".toList ++ H
         else "Host: ".toList ++ H ++ ':' :: Nat.toDigits 10 P]) ∧
    (((lines.drop 1).any fun l => !l.isEmpty && isHostLine l) = true →
      rebuildLines lines method path version H P =
        (method ++ ' ' :: path ++ ' ' :: version) ::
          (lines.drop 1).filter (fun l => !l.isEmpty && !isStrippedHopHeader l)) := by
  constructor
  · intro hno
    simp only [rebuildLines]
    rw [if_neg hno]
    show ((lines.drop 1).filter (fun l => !l.isEmpty && !isStrippedHopHeader l)
        ++ [synthHostLine H P]).filter isHostLine = _
    rw [List.filter_append]
    rw [List.filter_eq_nil_iff.mpr (kept_no_host hno)]
    rw [List.nil_append, List.filter_cons_of_pos (isHostLine_synth H P), List.filter_nil]
    rw [synthHostLine]
  · intro hyes
    simp only [rebuildLines]
    rw [if_pos hyes]

/-- Witness for C8: a request with absolute URI `http://example.com:8080/p`
and no Host header gets exactly the synthesized `Host: example.com:8080`
line; one with URI `http://example.com/` and an original Host header keeps
its header lines unchanged with nothing synthesized. -/
theorem spec_c8_host_synthesis_witness :
    ((rebuildLines
        ["GET http://example.com:8080/p HTTP/1.1".toList, "User-Agent: x".toList, [] ]
        "GET".toList "/p".toList "HTTP/1.1".toList "example.com".toList 8080).drop 1).filter
      isHostLine =
      [if (8080 : Nat) = 80 then "Host: ".toList ++ "example.com".toList
       else "Host: ".toList ++ "example.com".toList ++ ':' :: Nat.toDigits 10 8080] ∧
    rebuildLines ["GET http://example.com/ HTTP/1.1".toList, "Host: example.com".toList, [] ]
        "GET".toList "/".toList "HTTP/1.1".toList "example.com".toList 80 =
      ("GET".toList ++ ' ' :: "/".toList ++ ' ' :: "HTTP/1.1".toList) ::
        (["GET http://example.com/ HTTP/1.1".toList, "Host: example.com".toList,
            [] ].drop 1).filter (fun l => !l.isEmpty && !isStrippedHopHeader l) := by
  constructor
  · exact (spec_c8_host_synthesis ("http://example.com:8080/p".toList) ("GET".toList)
      ("HTTP/1.1".toList) ("/p".toList) ("example.com".toList) 8080
      ["GET http://example.com:8080/p HTTP/1.1".toList, "User-Agent: x".toList, [] ]
      (by decide) (by rfl)).1 (by decide)
  · exact (spec_c8_host_synthesis ("http://example.com/".toList) ("GET".toList)
      ("HTTP/1.1".toList) ("/".toList) ("example.com".toList) 80
      ["GET http://example.com/ HTTP/1.1".toList, "Host: example.com".toList, [] ]
      (by decide) (by rfl)).2 (by decide)

end IfaceProxy
